import Mathlib

/-!
Shallow embedding of the market-api snapshot persistence and change-detection
engine (src/app/services/data_storage.py, mix_indicator.py, market.py,
enhance_market.py), together with theorems settling the frozen claims.

Modelling conventions:
* Python floats are modelled as rationals; Python round(x, n) is modelled as
  round-half-to-even on rationals (roundTo), matching CPython's rounding rule
  on exactly-representable inputs.
* A Python dict is an association list with the keys in insertion order;
  dict.get is dictGet (first match).
* A cell of a stored table row is Option Value: none models both Python None
  and a pandas NaN / missing cell; Value covers the numeric and textual
  values that flow through the engine.
* The date column (an ISO YYYY-MM-DD string, whose lexicographic order is
  calendar order) is modelled as a natural number; the timestamp column,
  which no claim depends on, is omitted from rows.
* pandas sort_values is modelled by a deterministic insertion sort on the
  date key; the claims under study never depend on the relative order of
  rows that share a date.
-/

/-- A scalar value as produced by the providers / stored in the tables:
a number or a piece of text. -/
inductive Value : Type where
  | num (q : ℚ)
  | str (s : String)
deriving DecidableEq

/-- A dict value slot: some value, or Python None / pandas NaN. -/
abbrev Cell : Type := Option Value

/-- Python dict.get: first binding of the key in the association list. -/
def dictGet {β : Type} (k : String) : List (String × β) → Option β
  | [] => none
  | (a, b) :: xs => if a = k then some b else dictGet k xs

/-- Round-half-to-even on rationals: the integer nearest to q, ties going to
the even integer.  This is CPython's rounding rule for round(). -/
def roundHalfEven (q : ℚ) : ℤ :=
  let f : ℤ := q.num.fdiv (q.den : ℤ)
  let r : ℚ := q - (f : ℚ)
  if r < 1 / 2 then f
  else if 1 / 2 < r then f + 1
  else if f % 2 = 0 then f else f + 1

/-- Python round(q, n): round-half-to-even at n decimal places. -/
def roundTo (n : ℕ) (q : ℚ) : ℚ :=
  ((roundHalfEven (q * (10 : ℚ) ^ n) : ℚ)) / (10 : ℚ) ^ n

/-- round(q, 2), the display precision of the enhanced datasets. -/
def round2 (q : ℚ) : ℚ := roundTo 2 q

/-- round(q, 1), the precision of the selected-indicators dataset. -/
def round1 (q : ℚ) : ℚ := roundTo 1 q

/-- One per-metric delta record produced by
EnhancedMarketService._calculate_changes.  The Python record is a dict whose
key set depends on the branch taken; every possibly-present key is an
optional field here, absent keys being none. -/
structure ChangeRecord : Type where
  current : Option Value := none
  previous : Option Value := none
  change_pct : Option ℚ := none
  change_value : Option ℚ := none
  direction : Option String := none
  change : Option String := none
  status : Option String := none
  error : Option String := none
deriving DecidableEq

/-- The record built by the else-branch of _calculate_changes:
current value retained, previous looked up with default None, status
NO_COMPARISON_DATA. -/
def noComparisonRecord (cv : Cell) (pv : Cell) : ChangeRecord :=
  { current := cv, previous := pv, status := some "NO_COMPARISON_DATA" }

/-- The body of the per-key loop of
EnhancedMarketService._calculate_changes (enhance_market.py 483-530).
Returns none when the Python loop iteration assigns nothing to changes[key]:
that happens when the previous value is present but None (the inner
`if previous_value is not None` has no else branch), and when the two values
fit neither the numeric-pair nor the textual-current cases.  The per-key
try/except CALCULATION_ERROR branch is unreachable over Value, since
subtraction, rounding and comparison of rationals and text never raise. -/
def calcChange (k : String) (cv : Cell)
    (previous : List (String × Cell)) (isPct : Bool) : Option ChangeRecord :=
  if cv.isSome ∧ (dictGet k previous).isSome then
    match (dictGet k previous).join with
    | none => none
    | some pv =>
      match cv, pv with
      | some (Value.num c), Value.num p =>
        if isPct ∧ p ≠ 0 then
          let pct : ℚ := ((c - p) / |p|) * 100
          some { current := some (Value.num (round2 c)),
                 previous := some (Value.num (round2 p)),
                 change_pct := some (round2 pct),
                 change_value := some (round2 (c - p)),
                 direction := some (if pct > 0 then "UP"
                                    else if pct < 0 then "DOWN"
                                    else "UNCHANGED") }
        else
          let cvdelta : ℚ := c - p
          some { current := some (Value.num (round2 c)),
                 previous := some (Value.num (round2 p)),
                 change_value := some (round2 cvdelta),
                 direction := some (if cvdelta > 0 then "UP"
                                    else if cvdelta < 0 then "DOWN"
                                    else "UNCHANGED") }
      | some (Value.str s), _ =>
        some { current := some (Value.str s),
               previous := some pv,
               change := some (if Value.str s ≠ pv then "CHANGED"
                               else "UNCHANGED") }
      | _, _ => none
  else
    some (noComparisonRecord cv (dictGet k previous).join)

/-- EnhancedMarketService._calculate_changes: one pass over the current
mapping, building the changes dict in iteration order. -/
def calcChanges (current previous : List (String × Cell)) (isPct : Bool) :
    List (String × ChangeRecord) :=
  current.filterMap fun kv => (calcChange kv.1 kv.2 previous isPct).map ((kv.1, ·))

/-- Descending insertion of one element into a list, by a sort key: the
element is placed before the first position where it may sit, after any
earlier element with an equal or larger key.  This is the stable descending
order produced by Python sorted(reverse=True); pandas sort_values
(ascending=False) produces the same multiset in the same key order, and no
claim under study depends on the relative order of equal keys. -/
def dins {α K : Type} [LinearOrder K] (key : α → K) (a : α) : List α → List α
  | [] => [a]
  | x :: xs => if key x ≤ key a then a :: x :: xs else x :: dins key a xs

/-- Descending insertion sort by a sort key. -/
def dsort {α K : Type} [LinearOrder K] (key : α → K) : List α → List α
  | [] => []
  | x :: xs => dins key x (dsort key xs)

/-- Sorted in non-increasing key order. -/
abbrev SortedDesc {α K : Type} [LinearOrder K] (key : α → K) (l : List α) : Prop :=
  l.Pairwise fun x y => key y ≤ key x

/-- One stored table row: the date column (calendar order) and the remaining
metric columns.  The timestamp column, which no claim depends on, is not
modelled; a none cell is a pandas NaN / missing value. -/
structure Row : Type where
  date : ℕ
  cells : List (String × Cell)
deriving DecidableEq

/-- The sort key of sort_values('date', ascending=False). -/
def rowDate (r : Row) : ℕ := r.date

/-- fillna(0) on one cell: a missing value becomes the number 0, anything
else is kept. -/
def fillCell : Cell → Cell
  | none => some (Value.num 0)
  | some v => some v

/-- fillna(0) over a whole row. -/
def fillRow (r : Row) : Row :=
  { r with cells := r.cells.map fun kv => (kv.1, fillCell kv.2) }

/-- Rounding of the numeric cells to 2 decimals (DataFrame.round(2) on the
numeric columns); text cells are left alone. -/
def round2Cell : Cell → Cell
  | some (Value.num q) => some (Value.num (round2 q))
  | c => c

/-- DataFrame.round(2) over a whole row. -/
def round2Row (r : Row) : Row :=
  { r with cells := r.cells.map fun kv => (kv.1, round2Cell kv.2) }

/-- DataStorageService.update_csv_file (data_storage.py 45-71): fillna(0) on
the new row and on the existing table, drop the existing row with the same
date, put the new row on top, sort descending by date, round the numeric
columns to 2 decimals, and store.  The no-existing-file branch coincides
with running the same steps on an empty table. -/
def updateCsvFile (newData : Row) (t : List Row) : List Row :=
  let n := fillRow newData
  let existing := (t.map fillRow).filter fun r => decide (r.date ≠ n.date)
  (dsort rowDate (n :: existing)).map round2Row

/-- pd.to_numeric(errors='coerce').round(1) on one cell: a number is rounded
to 1 decimal, text is coerced to NaN, NaN stays NaN. -/
def toNumR1Cell : Cell → Cell
  | some (Value.num q) => some (Value.num (round1 q))
  | _ => none

/-- The numeric coercion of SelectedIndicatorsService.save_data over a
whole row. -/
def toNumR1Row (r : Row) : Row :=
  { r with cells := r.cells.map fun kv => (kv.1, toNumR1Cell kv.2) }

/-- SelectedIndicatorsService.save_data (mix_indicator.py 58-102): coerce
the new row and the existing table with to_numeric(errors='coerce').round(1)
— which keeps missing values missing — drop the existing row with the same
date when there is one, put the new row on top and sort descending by date.
The column reordering of the original, which only permutes columns, is not
modelled. -/
def saveData (newData : Row) (t : List Row) : List Row :=
  let n := toNumR1Row newData
  let existing := t.map toNumR1Row
  let existing2 :=
    if existing.any (fun r => r.date == n.date) then
      existing.filter fun r => decide (r.date ≠ n.date)
    else existing
  dsort rowDate (n :: existing2)

/-- MarketService._save_daily_data (market.py 87-142), for one of its two
files: drop the existing row with the same date when there is one and
prepend the new row.  No sorting, no fillna, no rounding happens on this
path. -/
def saveDailyData (newData : Row) (t : List Row) : List Row :=
  if t.any (fun r => r.date == newData.date) then
    newData :: t.filter fun r => decide (r.date ≠ newData.date)
  else newData :: t

/-- MarketService.get_historical_data (market.py 144-166), for one file:
read the stored table as-is and keep the first days rows. -/
def readDaily (days : ℕ) (t : List Row) : List Row := t.take days

/-- The outcome of one provider fetch for one symbol: a closing value, an
empty result set, or a raised error. -/
inductive ProviderResult : Type where
  | ok (q : ℚ)
  | empty
  | err
deriving DecidableEq

/-- EnhancedMarketService._collect_data (enhance_market.py 70-82): walk the
catalogue; a successful non-empty fetch stores the rounded close, a raised
error stores None, and an empty-but-successful fetch stores nothing at all
(the assignment is guarded by `if not data.empty` and the except branch is
not reached). -/
def collectData (symbols : List (String × String))
    (provider : String → ProviderResult) : List (String × Cell) :=
  symbols.filterMap fun ns =>
    match provider ns.2 with
    | ProviderResult.ok q => some (ns.1, some (Value.num (round2 q)))
    | ProviderResult.empty => none
    | ProviderResult.err => some (ns.1, none)

/-- SelectedIndicatorsService.collect_current_data (mix_indicator.py 38-56):
same walk, but its `else` branch stores None on an empty result as well, so
every metric of the catalogue gets an entry.  (The timestamp entry of the
result dict is not modelled.) -/
def collectCurrentData (symbols : List (String × String))
    (provider : String → ProviderResult) : List (String × Cell) :=
  symbols.map fun ns =>
    match provider ns.2 with
    | ProviderResult.ok q => (ns.1, some (Value.num (round1 q)))
    | ProviderResult.empty => (ns.1, none)
    | ProviderResult.err => (ns.1, none)

/-- EnhancedMarketService._get_market_direction (enhance_market.py 187-210):
count the UP and the DOWN records, compare the two shares of the category
size with 0.6 and 0.5 and classify.  Records are Python dicts and always
truthy, so the `item and` guard never excludes one. -/
def getMarketDirection (categoryChanges : List (String × ChangeRecord)) : String :=
  let upCount : ℕ :=
    categoryChanges.countP fun kv => kv.2.direction == some "UP"
  let downCount : ℕ :=
    categoryChanges.countP fun kv => kv.2.direction == some "DOWN"
  let total : ℕ := categoryChanges.length
  if total = 0 then "UNDEFINED"
  else
    let upShare : ℚ := (upCount : ℚ) / (total : ℚ)
    let downShare : ℚ := (downCount : ℚ) / (total : ℚ)
    if upShare > 6 / 10 then "STRONGLY_UP"
    else if upShare > 5 / 10 then "SLIGHTLY_UP"
    else if downShare > 6 / 10 then "STRONGLY_DOWN"
    else if downShare > 5 / 10 then "SLIGHTLY_DOWN"
    else "MIXED"

/-- EnhancedMarketService._calculate_risk_level (enhance_market.py 124-134)
as called on vix_change.get('current'): the Python comparison `vix < 15`
raises TypeError when the operand is None or text, modelled by the error
case; a numeric operand is classified by the ascending cutoffs. -/
def calcRiskLevel : Option Value → Except Unit String
  | some (Value.num vix) =>
    Except.ok (if vix < 15 then "LOW"
               else if vix < 25 then "MODERATE"
               else if vix < 35 then "HIGH"
               else "VERY HIGH")
  | _ => Except.error ()

/-- EnhancedMarketService._analyze_volatility (enhance_market.py 212-218):
look the VIX record up; a missing record (the empty-dict default, falsy)
yields UNKNOWN for both fields, a present record has its current value
classified — which raises when that value is absent — and its direction
reported with default UNKNOWN. -/
def analyzeVolatility (volatilityChanges : List (String × ChangeRecord)) :
    Except Unit (String × String) :=
  match dictGet "VIX" volatilityChanges with
  | none => Except.ok ("UNKNOWN", "UNKNOWN")
  | some r =>
    match calcRiskLevel r.current with
    | Except.error e => Except.error e
    | Except.ok level => Except.ok (level, r.direction.getD "UNKNOWN")

/-- EnhancedMarketService._analyze_bonds (enhance_market.py 220-235). -/
def analyzeBonds (bondChanges : List (String × ChangeRecord)) : String :=
  if bondChanges.isEmpty then "UNKNOWN"
  else
    let upCount : ℕ := bondChanges.countP fun kv => kv.2.direction == some "UP"
    let downCount : ℕ := bondChanges.countP fun kv => kv.2.direction == some "DOWN"
    if upCount > downCount then "YIELD_RISING"
    else if downCount > upCount then "YIELD_FALLING"
    else "STABLE"

/-- One entry of the significant-changes list. -/
structure SigChange : Type where
  category : String
  item : String
  change_pct : ℚ
  direction : String
deriving DecidableEq

/-- The inner loop of _get_significant_changes over one category: keep the
records carrying a change_pct at least the threshold in absolute value.
Reading data['direction'] raises KeyError when a kept record has no
direction field, modelled by the error case. -/
def collectSig (category : String) (threshold : ℚ) :
    List (String × ChangeRecord) → Except Unit (List SigChange)
  | [] => Except.ok []
  | (item, r) :: rest =>
    match r.change_pct with
    | none => collectSig category threshold rest
    | some pct =>
      if |pct| ≥ threshold then
        match r.direction with
        | none => Except.error ()
        | some dir =>
          match collectSig category threshold rest with
          | Except.error e => Except.error e
          | Except.ok tail =>
            Except.ok ({ category := category, item := item,
                         change_pct := pct, direction := dir } :: tail)
      else collectSig category threshold rest

/-- The outer loop of _get_significant_changes over every category.  Values
of the changes dict that are not dicts of records (the timestamp entry) are
skipped by the isinstance guard and are not part of this list. -/
def collectAllSig (threshold : ℚ) :
    List (String × List (String × ChangeRecord)) → Except Unit (List SigChange)
  | [] => Except.ok []
  | (category, items) :: rest =>
    match collectSig category threshold items with
    | Except.error e => Except.error e
    | Except.ok here =>
      match collectAllSig threshold rest with
      | Except.error e => Except.error e
      | Except.ok there => Except.ok (here ++ there)

/-- EnhancedMarketService._get_significant_changes (enhance_market.py
237-252): scan every category, then sorted(key=abs(change_pct),
reverse=True) — a stable descending sort by absolute percentage change. -/
def getSignificantChanges (changes : List (String × List (String × ChangeRecord)))
    (threshold : ℚ) : Except Unit (List SigChange) :=
  match collectAllSig threshold changes with
  | Except.error e => Except.error e
  | Except.ok l => Except.ok (dsort (fun s => |s.change_pct|) l)

/-- The per-category changes dict built by get_market_changes and consumed
by _analyze_market_status; the timestamp entry, a plain string skipped by
every consumer loop, is not modelled. -/
structure MarketChanges : Type where
  exchange_rates : List (String × ChangeRecord)
  local_indices : List (String × ChangeRecord)
  global_indices : List (String × ChangeRecord)
  commodities : List (String × ChangeRecord)
  bonds : List (String × ChangeRecord)
  volatility : List (String × ChangeRecord)
  crypto : List (String × ChangeRecord)
  derived_indicators : List (String × ChangeRecord)
deriving DecidableEq

/-- The changes dict in its Python key order, as iterated by
_get_significant_changes (the timestamp entry is skipped there by the
isinstance guard). -/
def changesToList (c : MarketChanges) :
    List (String × List (String × ChangeRecord)) :=
  [("exchange_rates", c.exchange_rates),
   ("local_indices", c.local_indices),
   ("global_indices", c.global_indices),
   ("commodities", c.commodities),
   ("bonds", c.bonds),
   ("volatility", c.volatility),
   ("crypto", c.crypto),
   ("derived_indicators", c.derived_indicators)]

/-- The market-status object of _analyze_market_status. -/
structure MarketStatus : Type where
  direction_local : String
  direction_global : String
  direction_currency : String
  direction_commodity : String
  volatility_level : String
  volatility_trend : String
  bond_market : String
  significant_changes : List SigChange
deriving DecidableEq

/-- EnhancedMarketService._analyze_market_status (enhance_market.py
165-185): build the status dict; any exception inside — the TypeError out
of the volatility sub-analysis or the KeyError out of the significant-change
scan — is caught and the whole call returns the empty dict, modelled as
none. -/
def analyzeMarketStatus (c : MarketChanges) : Option MarketStatus :=
  match analyzeVolatility c.volatility, getSignificantChanges (changesToList c) 2 with
  | Except.ok vol, Except.ok sig =>
    some { direction_local := getMarketDirection c.local_indices,
           direction_global := getMarketDirection c.global_indices,
           direction_currency := getMarketDirection c.exchange_rates,
           direction_commodity := getMarketDirection c.commodities,
           volatility_level := vol.1,
           volatility_trend := vol.2,
           bond_market := analyzeBonds c.bonds,
           significant_changes := sig }
  | _, _ => none

/-- The derived_ column-name stripping of _load_latest_data /
_load_yesterday_data: a column starting with derived_ has every occurrence
of that text removed from its name (str.replace), other columns keep their
name. -/
def stripDerived (cells : List (String × Cell)) : List (String × Cell) :=
  cells.map fun kv =>
    (if kv.1.startsWith "derived_" then kv.1.replace "derived_" "" else kv.1, kv.2)

/-- The basic half of EnhancedMarketService._load_latest_data
(enhance_market.py 359-391): a missing or empty file yields the empty dict,
otherwise df.iloc[1] — which raises IndexError when the table has fewer
than two rows — yields the columns of the row at position 1 (the date and
timestamp columns are excluded; they are not part of Row.cells). -/
def loadBasicData (t : List Row) : Except Unit (List (String × Cell)) :=
  if t.isEmpty then Except.ok []
  else
    match t.get? 1 with
    | some r => Except.ok r.cells
    | none => Except.error ()

/-- The global half of _load_latest_data: as loadBasicData, with the
derived_ prefix stripped from the column names. -/
def loadGlobalData (t : List Row) : Except Unit (List (String × Cell)) :=
  if t.isEmpty then Except.ok []
  else
    match t.get? 1 with
    | some r => Except.ok (stripDerived r.cells)
    | none => Except.error ()

/-- EnhancedMarketService._load_latest_data: load both baselines; any raised
IndexError is caught by the enclosing try and both dicts degrade to empty. -/
def loadLatestData (basicT globalT : List Row) :
    List (String × Cell) × List (String × Cell) :=
  match loadBasicData basicT with
  | Except.error _ => ([], [])
  | Except.ok b =>
    match loadGlobalData globalT with
    | Except.error _ => ([], [])
    | Except.ok g => (b, g)

/-- One collected snapshot, one field per category, as assembled by
get_enhanced_market_data.  Collected values are numbers or None; the derived
indicators may also carry the textual risk level. -/
structure EnhSnapshot : Type where
  exchange_rates : List (String × Cell)
  local_indices : List (String × Cell)
  global_indices : List (String × Cell)
  commodities : List (String × Cell)
  bonds : List (String × Cell)
  volatility : List (String × Cell)
  crypto : List (String × Cell)
  derived_indicators : List (String × Cell)
deriving DecidableEq

/-- The basic_indicators row assembled by save_enhanced_data: exchange rates
then local indices. -/
def basicRowCells (s : EnhSnapshot) : List (String × Cell) :=
  s.exchange_rates ++ s.local_indices

/-- The global_indicators row assembled by save_enhanced_data: global
indices, commodities, bonds, volatility, crypto, then the derived indicators
under the derived_ name prefix. -/
def globalRowCells (s : EnhSnapshot) : List (String × Cell) :=
  s.global_indices ++ s.commodities ++ s.bonds ++ s.volatility ++ s.crypto ++
    s.derived_indicators.map fun kv => ("derived_" ++ kv.1, kv.2)

/-- The filtered baseline passed to each _calculate_changes call of
get_market_changes: the loaded dict restricted to the keys of the given
catalogue. -/
def restrictTo (keys : List String) (prev : List (String × Cell)) :
    List (String × Cell) :=
  prev.filter fun kv => keys.contains kv.1

/-- EnhancedMarketService.get_market_changes (enhance_market.py 393-481),
after the collection step: persist the current snapshot into both tables
with update_csv_file, only then load the comparison baseline from the
updated tables, and compute the per-category changes against the loaded
dicts restricted to each catalogue (bonds in absolute mode, all other
categories in percentage mode).  Returns the updated tables together with
the changes object. -/
def getMarketChanges
    (currencyKeys indexKeys globalKeys commodityKeys bondKeys volKeys
      cryptoKeys : List String)
    (s : EnhSnapshot) (d : ℕ) (basicT globalT : List Row) :
    (List Row × List Row) × MarketChanges :=
  let basicT' := updateCsvFile { date := d, cells := basicRowCells s } basicT
  let globalT' := updateCsvFile { date := d, cells := globalRowCells s } globalT
  let latest := loadLatestData basicT' globalT'
  ((basicT', globalT'),
   { exchange_rates :=
       calcChanges s.exchange_rates (restrictTo currencyKeys latest.1) true,
     local_indices :=
       calcChanges s.local_indices (restrictTo indexKeys latest.1) true,
     global_indices :=
       calcChanges s.global_indices (restrictTo globalKeys latest.2) true,
     commodities :=
       calcChanges s.commodities (restrictTo commodityKeys latest.2) true,
     bonds :=
       calcChanges s.bonds (restrictTo bondKeys latest.2) false,
     volatility :=
       calcChanges s.volatility (restrictTo volKeys latest.2) true,
     crypto :=
       calcChanges s.crypto (restrictTo cryptoKeys latest.2) true,
     derived_indicators :=
       calcChanges s.derived_indicators
         (restrictTo (s.derived_indicators.map Prod.fst) latest.2) true })

section SortLemmas

variable {α K : Type} [LinearOrder K]

theorem dins_perm (key : α → K) (a : α) :
    ∀ l : List α, (dins key a l).Perm (a :: l)
  | [] => List.Perm.refl _
  | x :: xs => by
    by_cases h : key x ≤ key a
    · simp [dins, h]
    · rw [dins, if_neg h]
      exact ((dins_perm key a xs).cons x).trans (List.Perm.swap a x xs)

theorem dsort_perm (key : α → K) : ∀ l : List α, (dsort key l).Perm l
  | [] => List.Perm.refl _
  | x :: xs => by
    rw [dsort]
    exact (dins_perm key x (dsort key xs)).trans ((dsort_perm key xs).cons x)

theorem dins_sorted (key : α → K) (a : α) :
    ∀ l : List α, SortedDesc key l → SortedDesc key (dins key a l)
  | [], _ => by simp [dins]
  | x :: xs, h => by
    obtain ⟨hx, hxs⟩ := List.pairwise_cons.mp h
    by_cases hle : key x ≤ key a
    · rw [dins, if_pos hle]
      refine List.Pairwise.cons ?_ h
      intro y hy
      rcases List.mem_cons.mp hy with rfl | hy'
      · exact hle
      · exact (hx y hy').trans hle
    · rw [dins, if_neg hle]
      refine List.Pairwise.cons ?_ (dins_sorted key a xs hxs)
      intro y hy
      rcases List.mem_cons.mp ((dins_perm key a xs).mem_iff.mp hy) with rfl | hy'
      · exact le_of_not_le hle
      · exact hx y hy'

theorem dsort_sorted (key : α → K) : ∀ l : List α, SortedDesc key (dsort key l)
  | [] => by simp [dsort]
  | x :: xs => by
    rw [dsort]
    exact dins_sorted key x _ (dsort_sorted key xs)

theorem dins_eq_cons (key : α → K) (a : α) :
    ∀ l : List α, (∀ y ∈ l, key y ≤ key a) → dins key a l = a :: l
  | [], _ => rfl
  | x :: xs, h => by rw [dins, if_pos (h x (List.mem_cons_self x xs))]

theorem dsort_eq_self (key : α → K) :
    ∀ l : List α, SortedDesc key l → dsort key l = l
  | [], _ => rfl
  | x :: xs, h => by
    obtain ⟨hx, hxs⟩ := List.pairwise_cons.mp h
    rw [dsort, dsort_eq_self key xs hxs, dins_eq_cons key x xs hx]

theorem dsort_idem (key : α → K) (l : List α) :
    dsort key (dsort key l) = dsort key l :=
  dsort_eq_self key _ (dsort_sorted key l)

theorem filter_dins_neg (key : α → K) (a : α) (p : α → Bool)
    (hpa : p a = false) :
    ∀ l : List α, (dins key a l).filter p = l.filter p
  | [] => by simp [dins, hpa]
  | x :: xs => by
    by_cases hle : key x ≤ key a
    · rw [dins, if_pos hle]
      simp [List.filter_cons, hpa]
    · rw [dins, if_neg hle]
      simp only [List.filter_cons, filter_dins_neg key a p hpa xs]

theorem filter_dins_pos (key : α → K) (a : α) (p : α → Bool)
    (hpa : p a = true) :
    ∀ l : List α, SortedDesc key l →
      (dins key a l).filter p = dins key a (l.filter p)
  | [], _ => by simp [dins, hpa]
  | x :: xs, h => by
    obtain ⟨hx, hxs⟩ := List.pairwise_cons.mp h
    by_cases hle : key x ≤ key a
    · rw [dins, if_pos hle]
      have hall : ∀ y ∈ (x :: xs).filter p, key y ≤ key a := by
        intro y hy
        rcases List.mem_cons.mp (List.mem_of_mem_filter hy) with rfl | hy'
        · exact hle
        · exact (hx y hy').trans hle
      rw [dins_eq_cons key a _ hall]
      simp [List.filter_cons, hpa]
    · rw [dins, if_neg hle]
      by_cases hpx : p x = true
      · simp only [List.filter_cons, hpx, if_true]
        rw [dins, if_neg hle, filter_dins_pos key a p hpa xs hxs]
      · have hpx' : p x = false := Bool.eq_false_iff.mpr hpx
        simp only [List.filter_cons, hpx', Bool.false_eq_true, if_false]
        exact filter_dins_pos key a p hpa xs hxs

theorem filter_dsort (key : α → K) (p : α → Bool) :
    ∀ l : List α, (dsort key l).filter p = dsort key (l.filter p)
  | [] => rfl
  | x :: xs => by
    rw [dsort]
    by_cases hpx : p x = true
    · rw [filter_dins_pos key x p hpx _ (dsort_sorted key xs),
        filter_dsort key p xs]
      simp [List.filter_cons, hpx, dsort]
    · have hpx' : p x = false := Bool.eq_false_iff.mpr hpx
      rw [filter_dins_neg key x p hpx', filter_dsort key p xs]
      simp [List.filter_cons, hpx']

theorem map_dins (key : α → K) (g : α → α) (hg : ∀ x, key (g x) = key x)
    (a : α) : ∀ l : List α, (dins key a l).map g = dins key (g a) (l.map g)
  | [] => rfl
  | x :: xs => by
    by_cases hle : key x ≤ key a
    · simp [dins, hle, hg]
    · simp [dins, hle, hg, map_dins key g hg a xs]

theorem map_dsort (key : α → K) (g : α → α) (hg : ∀ x, key (g x) = key x) :
    ∀ l : List α, (dsort key l).map g = dsort key (l.map g)
  | [] => rfl
  | x :: xs => by
    rw [dsort, List.map_cons, dsort, map_dins key g hg x _,
      map_dsort key g hg xs]

end SortLemmas

theorem roundHalfEven_intCast (k : ℤ) : roundHalfEven (k : ℚ) = k := by
  unfold roundHalfEven
  simp only [Rat.num_intCast, Rat.den_intCast, Nat.cast_one, Int.fdiv_one,
    sub_self]
  norm_num

theorem roundTo_idem (n : ℕ) (q : ℚ) : roundTo n (roundTo n q) = roundTo n q := by
  unfold roundTo
  rw [div_mul_cancel₀ _ (by positivity : ((10 : ℚ) ^ n) ≠ 0),
    roundHalfEven_intCast]

theorem round2_idem (q : ℚ) : round2 (round2 q) = round2 q := roundTo_idem 2 q

theorem round2Cell_idem (c : Cell) : round2Cell (round2Cell c) = round2Cell c := by
  match c with
  | none => rfl
  | some (Value.str s) => rfl
  | some (Value.num q) => simp [round2Cell, round2_idem]

theorem fillCell_round2Cell_fillCell (c : Cell) :
    fillCell (round2Cell (fillCell c)) = round2Cell (fillCell c) := by
  match c with
  | none => rfl
  | some (Value.str s) => rfl
  | some (Value.num q) => rfl

theorem fillRow_date (r : Row) : (fillRow r).date = r.date := rfl

theorem round2Row_date (r : Row) : (round2Row r).date = r.date := rfl

theorem toNumR1Row_date (r : Row) : (toNumR1Row r).date = r.date := rfl

theorem rowDate_fillRow (r : Row) : rowDate (fillRow r) = rowDate r := rfl

theorem rowDate_round2Row (r : Row) : rowDate (round2Row r) = rowDate r := rfl

theorem round2Row_idem (r : Row) : round2Row (round2Row r) = round2Row r := by
  unfold round2Row
  simp only [List.map_map]
  congr 1
  apply List.map_congr_left
  intro kv _
  simp [Function.comp, round2Cell_idem]

theorem fillRow_round2Row_fillRow (r : Row) :
    fillRow (round2Row (fillRow r)) = round2Row (fillRow r) := by
  unfold fillRow round2Row
  simp only [List.map_map]
  congr 1
  apply List.map_congr_left
  intro kv _
  simp [Function.comp, fillCell_round2Cell_fillCell]

theorem dsort_cons {α K : Type} [LinearOrder K] (key : α → K) (x : α)
    (xs : List α) : dsort key (x :: xs) = dins key x (dsort key xs) := rfl

theorem updateCsvFile_idem (n : Row) (t : List Row) :
    updateCsvFile n (updateCsvFile n t) = updateCsvFile n t := by
  unfold updateCsvFile
  simp only [fillRow_date]
  set p : Row → Bool := fun r => decide (r.date ≠ n.date) with hp
  set N : Row := fillRow n with hN
  set E : List Row := (t.map fillRow).filter p with hE
  have hNdate : N.date = n.date := fillRow_date n
  have hkeyR : ∀ x : Row, rowDate (round2Row x) = rowDate x := rowDate_round2Row
  have hkeyFR : ∀ x : Row, rowDate ((fillRow ∘ round2Row) x) = rowDate x := by
    intro x
    simp only [Function.comp_apply, rowDate_fillRow, rowDate_round2Row]
  have hpM : p ((fillRow ∘ round2Row) N) = false := by
    simp [hp, Function.comp, fillRow_date, round2Row_date, hNdate]
  -- re-reading the once-updated table: fill it again and drop the date row
  have step1 :
      (((dsort rowDate (N :: E)).map round2Row).map fillRow).filter p
        = (dsort rowDate ((N :: E).map (fillRow ∘ round2Row))).filter p := by
    rw [List.map_map, map_dsort rowDate (fillRow ∘ round2Row) hkeyFR]
  have step2 :
      ((dsort rowDate ((N :: E).map (fillRow ∘ round2Row))).filter p)
        = dsort rowDate (E.map (fillRow ∘ round2Row)) := by
    rw [List.map_cons, dsort_cons,
      filter_dins_neg rowDate _ p hpM,
      filter_dsort, List.filter_eq_self.mpr ?_]
    intro a ha
    obtain ⟨x, hx, rfl⟩ := List.mem_map.mp ha
    have hpx : p x = true := List.of_mem_filter hx
    simp only [hp] at hpx ⊢
    simpa [Function.comp, fillRow_date, round2Row_date] using hpx
  rw [step1, step2]
  have step3 : dsort rowDate (N :: dsort rowDate (E.map (fillRow ∘ round2Row)))
      = dsort rowDate (N :: E.map (fillRow ∘ round2Row)) := by
    rw [dsort_cons, dsort_cons, dsort_idem]
  rw [step3, map_dsort rowDate round2Row hkeyR, map_dsort rowDate round2Row hkeyR]
  congr 1
  rw [List.map_cons, List.map_cons]
  congr 1
  rw [List.map_map]
  apply List.map_congr_left
  intro a ha
  obtain ⟨z, hz, rfl⟩ := List.mem_map.mp (List.mem_of_mem_filter ha)
  show round2Row ((fillRow ∘ round2Row) (fillRow z)) = round2Row (fillRow z)
  simp only [Function.comp_apply]
  rw [fillRow_round2Row_fillRow, round2Row_idem]

theorem updateCsvFile_countP_date (n : Row) (t : List Row) :
    (updateCsvFile n t).countP (fun r => decide (r.date = n.date)) = 1 := by
  unfold updateCsvFile
  simp only [fillRow_date]
  set pd : Row → Bool := fun r => decide (r.date = n.date) with hpd
  set p : Row → Bool := fun r => decide (r.date ≠ n.date) with hp
  set N : Row := fillRow n with hN
  set E : List Row := (t.map fillRow).filter p with hE
  calc ((dsort rowDate (N :: E)).map round2Row).countP pd
      = (dsort rowDate (N :: E)).countP (pd ∘ round2Row) :=
        List.countP_map pd round2Row _
    _ = (dsort rowDate (N :: E)).countP pd := by
        apply List.countP_congr
        intro a _
        simp [hpd, Function.comp, round2Row_date]
    _ = (N :: E).countP pd := (dsort_perm rowDate _).countP_eq pd
    _ = E.countP pd + 1 := by
        rw [List.countP_cons]
        have : pd N = true := by simp [hpd, hN, fillRow_date]
        rw [this]
        simp
    _ = 1 := by
        have : E.countP pd = 0 := by
          apply List.countP_eq_zero.mpr
          intro a ha
          have hpa : p a = true := List.of_mem_filter ha
          simp only [hp, decide_eq_true_eq] at hpa
          simp [hpd, hpa]
        rw [this]

theorem updateCsvFile_sorted (n : Row) (t : List Row) :
    SortedDesc rowDate (updateCsvFile n t) := by
  unfold updateCsvFile
  exact (dsort_sorted rowDate _).map round2Row
    (by intro a b h; simpa [rowDate_round2Row] using h)

theorem saveData_sorted (n : Row) (t : List Row) :
    SortedDesc rowDate (saveData n t) := by
  unfold saveData
  exact dsort_sorted rowDate _

theorem saveDailyData_sorted (n : Row) (t : List Row)
    (hall : ∀ r ∈ t, r.date ≤ n.date) (ht : SortedDesc rowDate t) :
    SortedDesc rowDate (saveDailyData n t) := by
  unfold saveDailyData
  by_cases h : t.any (fun r => r.date == n.date) = true
  · rw [if_pos h]
    refine List.Pairwise.cons ?_ (ht.filter _)
    intro y hy
    exact hall y (List.mem_of_mem_filter hy)
  · rw [if_neg h]
    exact List.Pairwise.cons hall ht

theorem readDaily_sorted (days : ℕ) (t : List Row)
    (ht : SortedDesc rowDate t) : SortedDesc rowDate (readDaily days t) :=
  ht.sublist (List.take_sublist days t)

theorem calcChange_none_current (k : String) (previous : List (String × Cell))
    (isPct : Bool) :
    calcChange k none previous isPct
      = some (noComparisonRecord none (dictGet k previous).join) := by
  simp [calcChange]

theorem calcChange_missing_prev (k : String) (cv : Cell)
    (previous : List (String × Cell)) (isPct : Bool)
    (h : dictGet k previous = none) :
    calcChange k cv previous isPct = some (noComparisonRecord cv none) := by
  simp [calcChange, h]

theorem calcChange_absent_prev_value (k : String) (v : Value)
    (previous : List (String × Cell)) (isPct : Bool)
    (h : dictGet k previous = some none) :
    calcChange k (some v) previous isPct = none := by
  simp [calcChange, h]

theorem calcChanges_keys_sublist (current previous : List (String × Cell))
    (isPct : Bool) :
    ((calcChanges current previous isPct).map Prod.fst).Sublist
      (current.map Prod.fst) := by
  induction current with
  | nil => simp [calcChanges]
  | cons kv rest ih =>
    simp only [calcChanges] at ih ⊢
    rw [List.filterMap_cons]
    cases h : calcChange kv.1 kv.2 previous isPct with
    | none =>
      simp only [h, Option.map_none', List.map_cons]
      exact ih.trans (List.sublist_cons_self _ _)
    | some r =>
      simp only [h, Option.map_some', List.map_cons]
      exact ih.cons₂ kv.1

theorem calcChange_empty_prev (k : String) (cv : Cell) (isPct : Bool) :
    calcChange k cv [] isPct = some (noComparisonRecord cv none) := by
  simp [calcChange, dictGet]

theorem calcChanges_empty_prev (current : List (String × Cell)) (isPct : Bool) :
    calcChanges current [] isPct
      = current.map fun kv => (kv.1, noComparisonRecord kv.2 none) := by
  induction current with
  | nil => rfl
  | cons kv rest ih =>
    simp only [calcChanges] at ih ⊢
    rw [List.filterMap_cons, calcChange_empty_prev, Option.map_some', ih,
      List.map_cons]

theorem collectData_keys_sublist (symbols : List (String × String))
    (provider : String → ProviderResult) :
    ((collectData symbols provider).map Prod.fst).Sublist
      (symbols.map Prod.fst) := by
  induction symbols with
  | nil => simp [collectData]
  | cons ns rest ih =>
    simp only [collectData] at ih ⊢
    rw [List.filterMap_cons]
    cases h : provider ns.2 with
    | ok q => simp only [h, List.map_cons]; exact ih.cons₂ ns.1
    | empty => simp only [h, List.map_cons]
               exact ih.trans (List.sublist_cons_self _ _)
    | err => simp only [h, List.map_cons]; exact ih.cons₂ ns.1

theorem collectData_err_mem (symbols : List (String × String))
    (provider : String → ProviderResult) (n s : String)
    (hmem : (n, s) ∈ symbols) (herr : provider s = ProviderResult.err) :
    (n, (none : Cell)) ∈ collectData symbols provider := by
  induction symbols with
  | nil => cases hmem
  | cons ns rest ih =>
    simp only [collectData] at ih ⊢
    rw [List.filterMap_cons]
    rcases List.mem_cons.mp hmem with heq | hmem'
    · cases heq
      simp only [herr]
      exact List.mem_cons_self _ _
    · cases h : provider ns.2 <;> simp only []
      · exact List.mem_cons_of_mem _ (ih hmem')
      · exact ih hmem'
      · exact List.mem_cons_of_mem _ (ih hmem')

theorem collectData_ok_mem (symbols : List (String × String))
    (provider : String → ProviderResult) (n s : String) (q : ℚ)
    (hmem : (n, s) ∈ symbols) (hok : provider s = ProviderResult.ok q) :
    (n, (some (Value.num (round2 q)) : Cell)) ∈ collectData symbols provider := by
  induction symbols with
  | nil => cases hmem
  | cons ns rest ih =>
    simp only [collectData] at ih ⊢
    rw [List.filterMap_cons]
    rcases List.mem_cons.mp hmem with heq | hmem'
    · cases heq
      simp only [hok]
      exact List.mem_cons_self _ _
    · cases h : provider ns.2 <;> simp only []
      · exact List.mem_cons_of_mem _ (ih hmem')
      · exact ih hmem'
      · exact List.mem_cons_of_mem _ (ih hmem')

theorem collectData_empty_not_mem (symbols : List (String × String))
    (provider : String → ProviderResult) (n s : String)
    (hmem : (n, s) ∈ symbols) (hnodup : (symbols.map Prod.fst).Nodup)
    (hempty : provider s = ProviderResult.empty) :
    n ∉ (collectData symbols provider).map Prod.fst := by
  induction symbols with
  | nil => cases hmem
  | cons ns rest ih =>
    rw [List.map_cons] at hnodup
    obtain ⟨hhead, htail⟩ := List.pairwise_cons.mp hnodup
    simp only [collectData] at ih ⊢
    rw [List.filterMap_cons]
    rcases List.mem_cons.mp hmem with heq | hmem'
    · cases heq
      simp only [hempty]
      intro hcontra
      have : n ∈ rest.map Prod.fst :=
        (collectData_keys_sublist rest provider).mem hcontra
      exact hhead n this rfl
    · have hn_ne : n ≠ ns.1 := by
        intro hcontra
        apply hhead n
        · exact List.mem_map_of_mem Prod.fst hmem'
        · exact hcontra.symm
      cases h : provider ns.2 <;> simp only [List.map_cons]
      · intro hcontra
        rcases List.mem_cons.mp hcontra with heq' | hmem''
        · exact hn_ne heq'
        · exact ih hmem' htail hmem''
      · exact ih hmem' htail
      · intro hcontra
        rcases List.mem_cons.mp hcontra with heq' | hmem''
        · exact hn_ne heq'
        · exact ih hmem' htail hmem''

theorem collectCurrentData_keys (symbols : List (String × String))
    (provider : String → ProviderResult) :
    (collectCurrentData symbols provider).map Prod.fst = symbols.map Prod.fst := by
  unfold collectCurrentData
  rw [List.map_map]
  apply List.map_congr_left
  intro ns _
  cases h : provider ns.2 <;> simp [h]

theorem getMarketDirection_six_of_ten (cat : List (String × ChangeRecord))
    (hlen : cat.length = 10)
    (hup : cat.countP (fun kv => kv.2.direction == some "UP") = 6) :
    getMarketDirection cat = "SLIGHTLY_UP" := by
  unfold getMarketDirection
  rw [hlen, hup]
  norm_num

theorem getMarketDirection_seven_of_ten (cat : List (String × ChangeRecord))
    (hlen : cat.length = 10)
    (hup : cat.countP (fun kv => kv.2.direction == some "UP") = 7) :
    getMarketDirection cat = "STRONGLY_UP" := by
  unfold getMarketDirection
  rw [hlen, hup]
  norm_num

theorem analyzeMarketStatus_vix_absent (c : MarketChanges) (r : ChangeRecord)
    (hvix : dictGet "VIX" c.volatility = some r) (hcur : r.current = none) :
    analyzeMarketStatus c = none := by
  unfold analyzeMarketStatus analyzeVolatility
  rw [hvix]
  simp only [hcur, calcRiskLevel]

/-- The kept entries of one category scan, as a pure list: exactly the
records carrying a change_pct at least the threshold in absolute value, in
scan order, with the direction they carry.  This is the effect of the inner
loop of _get_significant_changes whenever no kept record is missing its
direction field. -/
def keptSig (category : String) (threshold : ℚ)
    (items : List (String × ChangeRecord)) : List SigChange :=
  items.filterMap fun kv =>
    match kv.2.change_pct, kv.2.direction with
    | some pct, some dir =>
      if |pct| ≥ threshold then
        some { category := category, item := kv.1, change_pct := pct,
               direction := dir }
      else none
    | _, _ => none

/-- The concatenated scan over every category. -/
def allKeptSig (threshold : ℚ) :
    List (String × List (String × ChangeRecord)) → List SigChange
  | [] => []
  | c :: rest => keptSig c.1 threshold c.2 ++ allKeptSig threshold rest

/-- Every record that carries a change_pct also carries a direction — true
of every record _calculate_changes produces. -/
def DirectionPresent (changes : List (String × List (String × ChangeRecord))) :
    Prop :=
  ∀ cat ∈ changes, ∀ kv ∈ cat.2, kv.2.change_pct.isSome → kv.2.direction.isSome

theorem collectSig_eq_keptSig (category : String) (threshold : ℚ)
    (items : List (String × ChangeRecord))
    (hwf : ∀ kv ∈ items, kv.2.change_pct.isSome → kv.2.direction.isSome) :
    collectSig category threshold items
      = Except.ok (keptSig category threshold items) := by
  induction items with
  | nil => rfl
  | cons kv rest ih =>
    have hrest : ∀ kv' ∈ rest, kv'.2.change_pct.isSome → kv'.2.direction.isSome :=
      fun kv' h => hwf kv' (List.mem_cons_of_mem _ h)
    have ihr := ih hrest
    obtain ⟨item, r⟩ := kv
    rw [collectSig]
    simp only [keptSig, List.filterMap_cons]
    cases hpct : r.change_pct with
    | none => simpa [keptSig] using ihr
    | some pct =>
      have hdir : r.direction.isSome :=
        hwf (item, r) (List.mem_cons_self _ _) (by rw [hpct]; rfl)
      obtain ⟨dir, hdir'⟩ := Option.isSome_iff_exists.mp hdir
      rw [hdir']
      by_cases hth : |pct| ≥ threshold
      · simp only [if_pos hth, ihr]
        rfl
      · simp only [if_neg hth]
        simpa [keptSig] using ihr

theorem collectAllSig_eq_allKeptSig (threshold : ℚ)
    (changes : List (String × List (String × ChangeRecord)))
    (hwf : DirectionPresent changes) :
    collectAllSig threshold changes = Except.ok (allKeptSig threshold changes) := by
  induction changes with
  | nil => rfl
  | cons c rest ih =>
    have hc : ∀ kv ∈ c.2, kv.2.change_pct.isSome → kv.2.direction.isSome :=
      hwf c (List.mem_cons_self _ _)
    have hrest : DirectionPresent rest :=
      fun cat h => hwf cat (List.mem_cons_of_mem _ h)
    rw [collectAllSig, collectSig_eq_keptSig c.1 threshold c.2 hc, ih hrest,
      allKeptSig]

theorem getSignificantChanges_eq (threshold : ℚ)
    (changes : List (String × List (String × ChangeRecord)))
    (hwf : DirectionPresent changes) :
    getSignificantChanges changes threshold
      = Except.ok (dsort (fun sc => |sc.change_pct|)
          (allKeptSig threshold changes)) := by
  unfold getSignificantChanges
  rw [collectAllSig_eq_allKeptSig threshold changes hwf]

theorem keptSig_threshold (category : String) (threshold : ℚ)
    (items : List (String × ChangeRecord)) :
    ∀ sc ∈ keptSig category threshold items, |sc.change_pct| ≥ threshold := by
  intro sc hsc
  obtain ⟨kv, -, hkv⟩ := List.mem_filterMap.mp hsc
  cases hpct : kv.2.change_pct with
  | none =>
    rw [hpct] at hkv
    exact Option.noConfusion hkv
  | some pct =>
    cases hdir : kv.2.direction with
    | none =>
      rw [hpct, hdir] at hkv
      exact Option.noConfusion hkv
    | some dir =>
      rw [hpct, hdir] at hkv
      by_cases hth : |pct| ≥ threshold
      · simp only [if_pos hth] at hkv
        cases hkv
        exact hth
      · simp only [if_neg hth] at hkv
        exact Option.noConfusion hkv

theorem allKeptSig_threshold (threshold : ℚ)
    (changes : List (String × List (String × ChangeRecord))) :
    ∀ sc ∈ allKeptSig threshold changes, |sc.change_pct| ≥ threshold := by
  induction changes with
  | nil => intro sc h; cases h
  | cons c rest ih =>
    intro sc hsc
    rcases List.mem_append.mp hsc with h | h
    · exact keptSig_threshold c.1 threshold c.2 sc h
    · exact ih sc h

theorem loadLatestData_at_one (basicT globalT : List Row) (rb rg : Row)
    (hb : basicT.get? 1 = some rb) (hg : globalT.get? 1 = some rg) :
    loadLatestData basicT globalT = (rb.cells, stripDerived rg.cells) := by
  have hbne : basicT.isEmpty = false := by
    cases basicT with
    | nil => cases hb
    | cons a l => rfl
  have hgne : globalT.isEmpty = false := by
    cases globalT with
    | nil => cases hg
    | cons a l => rfl
  rw [List.get?_eq_getElem?] at hb hg
  unfold loadLatestData loadBasicData loadGlobalData
  simp [hbne, hgne, hb, hg]

theorem loadLatestData_short (basicT globalT : List Row)
    (h : basicT.length = 1 ∨ globalT.length = 1) :
    loadLatestData basicT globalT = ([], []) := by
  unfold loadLatestData loadBasicData loadGlobalData
  rcases h with h | h
  · obtain ⟨r, hr⟩ := List.length_eq_one.mp h
    subst hr
    simp
  · obtain ⟨r, hr⟩ := List.length_eq_one.mp h
    subst hr
    by_cases hbe : basicT.isEmpty = true
    · simp [hbe]
    · rw [if_neg hbe]
      cases hb1 : basicT[1]? <;> simp [hb1]

theorem round2_zero : round2 0 = 0 := by
  unfold round2 roundTo
  rw [zero_mul, show ((0 : ℚ)) = ((0 : ℤ) : ℚ) by norm_num,
    roundHalfEven_intCast]
  norm_num

theorem dictGet_map (k : String) (f : Cell → Cell) (l : List (String × Cell)) :
    dictGet k (l.map fun kv => (kv.1, f kv.2)) = (dictGet k l).map f := by
  induction l with
  | nil => rfl
  | cons kv rest ih =>
    by_cases h : kv.1 = k <;> simp [dictGet, h, ih]

theorem mem_dins_self {α K : Type} [LinearOrder K] (key : α → K) (a : α)
    (l : List α) : a ∈ dins key a l :=
  (dins_perm key a l).mem_iff.mpr (List.mem_cons_self a l)

theorem mem_dsort_cons_self {α K : Type} [LinearOrder K] (key : α → K)
    (x : α) (L : List α) : x ∈ dsort key (x :: L) := by
  rw [dsort_cons]
  exact mem_dins_self key x _

theorem saveData_new_mem (n : Row) (t : List Row) :
    toNumR1Row n ∈ saveData n t := by
  unfold saveData
  exact mem_dsort_cons_self rowDate _ _

theorem updateCsvFile_new_mem (n : Row) (t : List Row) :
    round2Row (fillRow n) ∈ updateCsvFile n t := by
  unfold updateCsvFile
  exact List.mem_map_of_mem round2Row (mem_dsort_cons_self rowDate _ _)

/-- C1 counterexample: the claim promises one NO_COMPARISON_DATA record for
a key whose previous value is present but absent; on the code, the key
X with current 10 and previous None yields no record at all, so the result
is empty rather than a one-record mapping. -/
theorem claim_C1_total_change_counterexample :
    calcChanges [("X", some (Value.num 10))] [("X", (none : Cell))] true = []
      ∧ (calcChanges [("X", some (Value.num 10))] [("X", (none : Cell))] true).length
          = 0 := by
  constructor <;>
    norm_num [calcChanges, calcChange, dictGet, List.filterMap_cons,
      List.filterMap_nil]

/-- C1 as amended: the change computation never raises and returns at most
one record per key of current, in order; a key with an absent current value,
or missing from previous, yields a NO_COMPARISON_DATA record with the
current value retained; but a key present in previous with an absent value
yields no record at all. -/
theorem claim_C1_total_change_amended :
    (∀ (current previous : List (String × Cell)) (isPct : Bool),
      ((calcChanges current previous isPct).map Prod.fst).Sublist
        (current.map Prod.fst)) ∧
    (∀ (k : String) (previous : List (String × Cell)) (isPct : Bool),
      calcChange k none previous isPct
        = some (noComparisonRecord none (dictGet k previous).join)) ∧
    (∀ (k : String) (cv : Cell) (previous : List (String × Cell)) (isPct : Bool),
      dictGet k previous = none →
        calcChange k cv previous isPct = some (noComparisonRecord cv none)) ∧
    (∀ (k : String) (v : Value) (previous : List (String × Cell)) (isPct : Bool),
      dictGet k previous = some none →
        calcChange k (some v) previous isPct = none) :=
  ⟨calcChanges_keys_sublist, calcChange_none_current, calcChange_missing_prev,
   calcChange_absent_prev_value⟩

/-- C1 witness: the amended statement at concrete inputs. -/
theorem claim_C1_total_change_amended_witness :
    calcChange "X" (some (Value.num 10)) [("X", (none : Cell))] true = none ∧
    calcChange "Y" (some (Value.num 5)) [] true
      = some (noComparisonRecord (some (Value.num 5)) none) :=
  ⟨claim_C1_total_change_amended.2.2.2 "X" (Value.num 10) [("X", none)] true
      (by decide),
   claim_C1_total_change_amended.2.2.1 "Y" (some (Value.num 5)) [] true
      (by decide)⟩

/-- C2: upserting the same (date, row) twice is idempotent — the table is
unchanged by the second upsert, so it has identical content, unchanged row
count, and exactly one row carrying that date. -/
theorem claim_C2_upsert_idempotent (n : Row) (t : List Row) :
    updateCsvFile n (updateCsvFile n t) = updateCsvFile n t ∧
    (updateCsvFile n (updateCsvFile n t)).length = (updateCsvFile n t).length ∧
    (updateCsvFile n t).countP (fun r => decide (r.date = n.date)) = 1 :=
  ⟨updateCsvFile_idem n t, by rw [updateCsvFile_idem n t],
   updateCsvFile_countP_date n t⟩

/-- C3 counterexample: the MarketService daily store prepends without
sorting, so upserting date 3 onto a table holding date 5 and reading it
back yields dates in increasing order. -/
theorem claim_C3_sort_counterexample :
    ¬ SortedDesc rowDate
        (readDaily 7 (saveDailyData { date := 3, cells := [] }
          (saveDailyData { date := 5, cells := [] } []))) := by
  intro h
  simp [readDaily, saveDailyData, rowDate, List.pairwise_cons] at h

/-- C3 as amended: the stores that re-sort on every upsert
(update_csv_file and the selected-indicators save) return non-increasing
date order after any upsert, and reading a prefix preserves it; the
MarketService daily store only prepends, so its reads are in non-increasing
date order only when every upsert date is at least every stored date. -/
theorem claim_C3_sort_invariant :
    (∀ (n : Row) (t : List Row), SortedDesc rowDate (updateCsvFile n t)) ∧
    (∀ (n : Row) (t : List Row), SortedDesc rowDate (saveData n t)) ∧
    (∀ (days : ℕ) (t : List Row),
      SortedDesc rowDate t → SortedDesc rowDate (readDaily days t)) ∧
    (∀ (n : Row) (t : List Row), (∀ r ∈ t, r.date ≤ n.date) →
      SortedDesc rowDate t → SortedDesc rowDate (saveDailyData n t)) :=
  ⟨updateCsvFile_sorted, saveData_sorted, readDaily_sorted, saveDailyData_sorted⟩

/-- C3 witness: the amended statement at concrete inputs. -/
theorem claim_C3_sort_invariant_witness :
    SortedDesc rowDate
      (readDaily 7 (saveDailyData { date := 5, cells := [] }
        [{ date := 3, cells := [] }])) :=
  claim_C3_sort_invariant.2.2.1 7 _
    (claim_C3_sort_invariant.2.2.2 { date := 5, cells := [] }
      [{ date := 3, cells := [] }] (by decide) (by decide))

/-- C4 counterexample: a category of 10 metrics with 6 UP and 4 DOWN
records classifies as SLIGHTLY_UP, not MIXED as the claim states — the
up-share 0.6 fails the strict greater-than-0.6 check but passes the
greater-than-0.5 check. -/
theorem claim_C4_direction_counterexample :
    getMarketDirection
        [("a", { direction := some "UP" }), ("b", { direction := some "UP" }),
         ("c", { direction := some "UP" }), ("d", { direction := some "UP" }),
         ("e", { direction := some "UP" }), ("f", { direction := some "UP" }),
         ("g", { direction := some "DOWN" }), ("h", { direction := some "DOWN" }),
         ("i", { direction := some "DOWN" }), ("j", { direction := some "DOWN" })]
      = "SLIGHTLY_UP" ∧
    getMarketDirection
        [("a", { direction := some "UP" }), ("b", { direction := some "UP" }),
         ("c", { direction := some "UP" }), ("d", { direction := some "UP" }),
         ("e", { direction := some "UP" }), ("f", { direction := some "UP" }),
         ("g", { direction := some "DOWN" }), ("h", { direction := some "DOWN" }),
         ("i", { direction := some "DOWN" }), ("j", { direction := some "DOWN" })]
      ≠ "MIXED" := by
  refine ⟨?_, ?_⟩ <;>
    norm_num [getMarketDirection, List.countP_cons,
      eq_false (by decide : ¬(("DOWN" : String) = "UP")),
      eq_false (by decide : ¬(("UP" : String) = "DOWN"))]
  decide

/-- C4 as amended: exactly 6 UP of 10 classifies as SLIGHTLY_UP (not
STRONGLY_UP, since the rule is strictly greater than 0.6, and not MIXED,
since 0.6 is strictly greater than 0.5); 7 UP of 10 classifies as
STRONGLY_UP. -/
theorem claim_C4_direction_boundary :
    (∀ cat : List (String × ChangeRecord), cat.length = 10 →
      cat.countP (fun kv => kv.2.direction == some "UP") = 6 →
      getMarketDirection cat = "SLIGHTLY_UP") ∧
    (∀ cat : List (String × ChangeRecord), cat.length = 10 →
      cat.countP (fun kv => kv.2.direction == some "UP") = 7 →
      getMarketDirection cat = "STRONGLY_UP") :=
  ⟨getMarketDirection_six_of_ten, getMarketDirection_seven_of_ten⟩

/-- C4 witness: the amended statement at concrete inputs. -/
theorem claim_C4_direction_boundary_witness :
    getMarketDirection
        [("a", { direction := some "UP" }), ("b", { direction := some "UP" }),
         ("c", { direction := some "UP" }), ("d", { direction := some "UP" }),
         ("e", { direction := some "UP" }), ("f", { direction := some "UP" }),
         ("g", { direction := some "UP" }), ("h", { direction := some "DOWN" }),
         ("i", { direction := some "DOWN" }), ("j", { direction := some "DOWN" })]
      = "STRONGLY_UP" :=
  claim_C4_direction_boundary.2 _ (by decide) (by decide)

/-- C5: in percentage mode with a numeric current and a previous value of
zero the computation falls back to the absolute-style record — change_value
only, no change_pct field, direction decided by the sign of the delta — and
no division error can arise; at current 10 and previous 0 the record is
change_value 10, direction UP. -/
theorem claim_C5_division_by_zero_safety :
    (∀ (k : String) (c : ℚ) (previous : List (String × Cell)),
      dictGet k previous = some (some (Value.num 0)) →
        calcChange k (some (Value.num c)) previous true
          = some { current := some (Value.num (round2 c)),
                   previous := some (Value.num (round2 0)),
                   change_value := some (round2 (c - 0)),
                   direction := some (if c - 0 > 0 then "UP"
                                      else if c - 0 < 0 then "DOWN"
                                      else "UNCHANGED") }) ∧
    calcChanges [("X", some (Value.num 10))] [("X", some (Value.num 0))] true
      = [("X", { current := some (Value.num 10),
                 previous := some (Value.num 0),
                 change_value := some 10, direction := some "UP" })] := by
  constructor
  · intro k c previous h
    simp [calcChange, h]
  · norm_num [calcChanges, calcChange, dictGet, round2, roundTo, roundHalfEven,
      List.filterMap_cons, List.filterMap_nil]

/-- C5 witness: the general fallback applied at current 10, previous 0. -/
theorem claim_C5_division_by_zero_safety_witness :
    calcChange "X" (some (Value.num 10)) [("X", some (Value.num 0))] true
      = some { current := some (Value.num (round2 10)),
               previous := some (Value.num (round2 0)),
               change_value := some (round2 (10 - 0)),
               direction := some (if (10 : ℚ) - 0 > 0 then "UP"
                                  else if (10 : ℚ) - 0 < 0 then "DOWN"
                                  else "UNCHANGED") } :=
  claim_C5_division_by_zero_safety.1 "X" 10 [("X", some (Value.num 0))]
    (by decide)

/-- C6: whenever every record carrying a change_pct also carries a direction
— which is true of every record the change engine produces — the
significant-change scan succeeds, keeps exactly the records with
|change_pct| at least the threshold (it returns a permutation of the plain
scan, every kept entry meeting the threshold), sorted in non-increasing
|change_pct| order; on change_pct values 1.5, -3.2, 4.0, -2.1 with
threshold 2 it returns exactly the three entries 4.0, -3.2, -2.1. -/
theorem claim_C6_significant_changes :
    (∀ (changes : List (String × List (String × ChangeRecord))) (threshold : ℚ),
      DirectionPresent changes →
        ∃ l, getSignificantChanges changes threshold = Except.ok l ∧
          SortedDesc (fun sc => |sc.change_pct|) l ∧
          l.Perm (allKeptSig threshold changes) ∧
          ∀ sc ∈ l, |sc.change_pct| ≥ threshold) ∧
    getSignificantChanges
        [("test",
          [("a", { change_pct := some 1.5, direction := some "UP" }),
           ("b", { change_pct := some (-3.2), direction := some "DOWN" }),
           ("c", { change_pct := some 4.0, direction := some "UP" }),
           ("d", { change_pct := some (-2.1), direction := some "DOWN" })])] 2
      = Except.ok
          [{ category := "test", item := "c", change_pct := 4.0,
             direction := "UP" },
           { category := "test", item := "b", change_pct := -3.2,
             direction := "DOWN" },
           { category := "test", item := "d", change_pct := -2.1,
             direction := "DOWN" }] := by
  constructor
  · intro changes threshold hwf
    refine ⟨dsort (fun sc => |sc.change_pct|) (allKeptSig threshold changes),
      getSignificantChanges_eq threshold changes hwf,
      dsort_sorted _ _, dsort_perm _ _, ?_⟩
    intro sc hsc
    exact allKeptSig_threshold threshold changes sc
      ((dsort_perm _ _).mem_iff.mp hsc)
  · norm_num [getSignificantChanges, collectAllSig, collectSig, dsort, dins,
      abs_le, le_abs]

/-- C6 witness: the scan applied at the concrete four-record category. -/
theorem claim_C6_significant_changes_witness :
    ∃ l, getSignificantChanges
        [("test",
          [("a", { change_pct := some 1.5, direction := some "UP" }),
           ("b", { change_pct := some (-3.2), direction := some "DOWN" }),
           ("c", { change_pct := some 4.0, direction := some "UP" }),
           ("d", { change_pct := some (-2.1), direction := some "DOWN" })])] 2
        = Except.ok l ∧
      SortedDesc (fun sc => |sc.change_pct|) l ∧
      l.Perm (allKeptSig 2
        [("test",
          [("a", { change_pct := some 1.5, direction := some "UP" }),
           ("b", { change_pct := some (-3.2), direction := some "DOWN" }),
           ("c", { change_pct := some 4.0, direction := some "UP" }),
           ("d", { change_pct := some (-2.1), direction := some "DOWN" })])]) ∧
      ∀ sc ∈ l, |sc.change_pct| ≥ 2 :=
  claim_C6_significant_changes.1 _ 2 (by
    intro cat hcat kv hkv hpct
    rcases List.mem_cons.mp hcat with rfl | hcat'
    · rcases List.mem_cons.mp hkv with rfl | hkv
      · rfl
      rcases List.mem_cons.mp hkv with rfl | hkv
      · rfl
      rcases List.mem_cons.mp hkv with rfl | hkv
      · rfl
      rcases List.mem_cons.mp hkv with rfl | hkv
      · rfl
      cases List.not_mem_nil _ hkv
    · cases List.not_mem_nil _ hcat')

/-- C7: the selected-indicators upsert stores the new row with an absent
value kept absent — never coerced to zero — while the update_csv_file path
used for the enhanced datasets is the one that substitutes zero for the
same absent value. -/
theorem claim_C7_absent_preserved (n : Row) (t : List Row) (k : String)
    (h : dictGet k n.cells = some none) :
    (∃ r ∈ saveData n t, r.date = n.date ∧ dictGet k r.cells = some none) ∧
    (∃ r ∈ updateCsvFile n t, r.date = n.date ∧
      dictGet k r.cells = some (some (Value.num 0))) := by
  constructor
  · refine ⟨toNumR1Row n, saveData_new_mem n t, rfl, ?_⟩
    show dictGet k (n.cells.map fun kv => (kv.1, toNumR1Cell kv.2)) = some none
    rw [dictGet_map, h]
    rfl
  · refine ⟨round2Row (fillRow n), updateCsvFile_new_mem n t, rfl, ?_⟩
    show dictGet k ((n.cells.map fun kv => (kv.1, fillCell kv.2)).map
        fun kv => (kv.1, round2Cell kv.2)) = some (some (Value.num 0))
    rw [dictGet_map, dictGet_map, h]
    simp [fillCell, round2Cell, round2_zero]

/-- C7 witness: the two storage paths at a one-column row with an absent
value. -/
theorem claim_C7_absent_preserved_witness :
    (∃ r ∈ saveData { date := 0, cells := [("A", none)] } [],
      r.date = ({ date := 0, cells := [("A", none)] } : Row).date ∧
      dictGet "A" r.cells = some none) ∧
    (∃ r ∈ updateCsvFile { date := 0, cells := [("A", none)] } [],
      r.date = ({ date := 0, cells := [("A", none)] } : Row).date ∧
      dictGet "A" r.cells = some (some (Value.num 0))) :=
  claim_C7_absent_preserved { date := 0, cells := [("A", none)] } [] "A"
    (by decide)

/-- C8 counterexample: a provider returning an empty (but successful) result
for symbol a leaves metric A without any entry in the collected mapping —
there is no absent marker for it — contradicting the claim that every
catalogue metric gets an entry. -/
theorem claim_C8_collector_counterexample :
    collectData [("A", "a"), ("B", "b")]
        (fun s => if s = "a" then ProviderResult.empty else ProviderResult.ok 5)
      = [("B", some (Value.num 5))] ∧
    "A" ∉ (collectData [("A", "a"), ("B", "b")]
        (fun s => if s = "a" then ProviderResult.empty
                  else ProviderResult.ok 5)).map Prod.fst := by
  have h2 : ¬(("b" : String) = "a") := by decide
  have h3 : ¬(("A" : String) = "B") := by decide
  constructor <;>
    norm_num [collectData, List.filterMap_cons, h2, h3, round2, roundTo,
      roundHalfEven]

/-- C8 as amended: the enhanced collector never raises and returns at most
one entry per catalogue metric; a provider error yields a None entry and
the remaining metrics are still collected, a successful fetch yields the
rounded value, but an empty-but-successful fetch omits the metric entirely;
the selected-indicators collector is the one that produces an entry for
every catalogue metric. -/
theorem claim_C8_collector_amended :
    (∀ (symbols : List (String × String)) (provider : String → ProviderResult),
      ((collectData symbols provider).map Prod.fst).Sublist
        (symbols.map Prod.fst)) ∧
    (∀ (symbols : List (String × String)) (provider : String → ProviderResult)
      (n s : String), (n, s) ∈ symbols → provider s = ProviderResult.err →
      (n, (none : Cell)) ∈ collectData symbols provider) ∧
    (∀ (symbols : List (String × String)) (provider : String → ProviderResult)
      (n s : String) (q : ℚ), (n, s) ∈ symbols →
      provider s = ProviderResult.ok q →
      (n, (some (Value.num (round2 q)) : Cell)) ∈ collectData symbols provider) ∧
    (∀ (symbols : List (String × String)) (provider : String → ProviderResult)
      (n s : String), (n, s) ∈ symbols → (symbols.map Prod.fst).Nodup →
      provider s = ProviderResult.empty →
      n ∉ (collectData symbols provider).map Prod.fst) ∧
    (∀ (symbols : List (String × String)) (provider : String → ProviderResult),
      (collectCurrentData symbols provider).map Prod.fst
        = symbols.map Prod.fst) :=
  ⟨collectData_keys_sublist, collectData_err_mem, collectData_ok_mem,
   collectData_empty_not_mem, collectCurrentData_keys⟩

/-- C8 witness: the amended statement at concrete providers. -/
theorem claim_C8_collector_amended_witness :
    (("A", (none : Cell)) ∈
      collectData [("A", "a")] (fun _ => ProviderResult.err)) ∧
    "A" ∉ (collectData [("A", "a"), ("B", "b")]
        (fun s => if s = "a" then ProviderResult.empty
                  else ProviderResult.ok 5)).map Prod.fst :=
  ⟨claim_C8_collector_amended.2.1 [("A", "a")] (fun _ => ProviderResult.err)
      "A" "a" (by decide) rfl,
   claim_C8_collector_amended.2.2.2.1 [("A", "a"), ("B", "b")]
      (fun s => if s = "a" then ProviderResult.empty else ProviderResult.ok 5)
      "A" "a" (by decide) (by decide) (by decide)⟩

/-- C9: get_market_changes persists the snapshot into both tables before
loading the baseline; the baseline is the row at position 1 of the updated
tables; and whenever either updated table has a single row — fewer than two
— the loader degrades both baselines to empty and every metric of every
category gets a NO_COMPARISON_DATA record instead of an error. -/
theorem claim_C9_baseline_after_persist
    (ck ik gk mk bk vk yk : List String) (s : EnhSnapshot) (d : ℕ)
    (basicT globalT : List Row) :
    (getMarketChanges ck ik gk mk bk vk yk s d basicT globalT).1.1
        = updateCsvFile { date := d, cells := basicRowCells s } basicT ∧
    (getMarketChanges ck ik gk mk bk vk yk s d basicT globalT).1.2
        = updateCsvFile { date := d, cells := globalRowCells s } globalT ∧
    (∀ rb rg : Row,
      (updateCsvFile { date := d, cells := basicRowCells s } basicT).get? 1
          = some rb →
      (updateCsvFile { date := d, cells := globalRowCells s } globalT).get? 1
          = some rg →
      loadLatestData
          (updateCsvFile { date := d, cells := basicRowCells s } basicT)
          (updateCsvFile { date := d, cells := globalRowCells s } globalT)
        = (rb.cells, stripDerived rg.cells)) ∧
    ((updateCsvFile { date := d, cells := basicRowCells s } basicT).length = 1 ∨
     (updateCsvFile { date := d, cells := globalRowCells s } globalT).length = 1 →
      (getMarketChanges ck ik gk mk bk vk yk s d basicT globalT).2
        = { exchange_rates := s.exchange_rates.map
              fun kv => (kv.1, noComparisonRecord kv.2 none),
            local_indices := s.local_indices.map
              fun kv => (kv.1, noComparisonRecord kv.2 none),
            global_indices := s.global_indices.map
              fun kv => (kv.1, noComparisonRecord kv.2 none),
            commodities := s.commodities.map
              fun kv => (kv.1, noComparisonRecord kv.2 none),
            bonds := s.bonds.map
              fun kv => (kv.1, noComparisonRecord kv.2 none),
            volatility := s.volatility.map
              fun kv => (kv.1, noComparisonRecord kv.2 none),
            crypto := s.crypto.map
              fun kv => (kv.1, noComparisonRecord kv.2 none),
            derived_indicators := s.derived_indicators.map
              fun kv => (kv.1, noComparisonRecord kv.2 none) }) := by
  refine ⟨rfl, rfl, ?_, ?_⟩
  · intro rb rg hb hg
    exact loadLatestData_at_one _ _ rb rg hb hg
  · intro hlen
    unfold getMarketChanges
    simp only [loadLatestData_short _ _ hlen, restrictTo, List.filter_nil,
      calcChanges_empty_prev]

/-- C9 witness: starting from empty tables, the single upserted row leaves
no baseline and every collected metric degrades to NO_COMPARISON_DATA. -/
theorem claim_C9_baseline_after_persist_witness :
    (getMarketChanges [] [] [] [] [] [] []
        { exchange_rates := [("USD/KRW", some (Value.num 1300))],
          local_indices := [], global_indices := [], commodities := [],
          bonds := [], volatility := [], crypto := [],
          derived_indicators := [] } 7 [] []).2
      = { exchange_rates :=
            [("USD/KRW",
              noComparisonRecord (some (Value.num 1300)) none)],
          local_indices := [], global_indices := [], commodities := [],
          bonds := [], volatility := [], crypto := [],
          derived_indicators := [] } :=
  claim_C9_baseline_after_persist [] [] [] [] [] [] []
    { exchange_rates := [("USD/KRW", some (Value.num 1300))],
      local_indices := [], global_indices := [], commodities := [],
      bonds := [], volatility := [], crypto := [],
      derived_indicators := [] } 7 [] [] |>.2.2.2 (Or.inl (by decide))

/-- C10: when the volatility category has a VIX record whose current value
is absent, the risk-level classification raises, the analyzer catch
swallows it and the whole market-status object is empty — every direction,
risk indicator and significant-change entry is dropped. -/
theorem claim_C10_vix_absent_empty_status (c : MarketChanges)
    (r : ChangeRecord) (hvix : dictGet "VIX" c.volatility = some r)
    (hcur : r.current = none) : analyzeMarketStatus c = none :=
  analyzeMarketStatus_vix_absent c r hvix hcur

/-- C10 witness: a changes object whose VIX record carries no current
value. -/
theorem claim_C10_vix_absent_empty_status_witness :
    analyzeMarketStatus
        { exchange_rates := [], local_indices := [], global_indices := [],
          commodities := [], bonds := [],
          volatility := [("VIX", noComparisonRecord none none)],
          crypto := [], derived_indicators := [] }
      = none :=
  claim_C10_vix_absent_empty_status _ (noComparisonRecord none none)
    (by decide) rfl
